import Mathlib

/-!
Verification of the `uk_tax_calculator` package (`src/uk_tax_calculator/calculator.py`).

The Python code computes with `decimal.Decimal` (arbitrary-precision decimal
arithmetic), which we embed as `ℚ`.  Checkpoint lists may also contain
`math.inf` (IEEE floats), and Python's `min`, `-`, `+`, `*` and `>` follow
IEEE semantics on `inf`/`nan`; the type `EDec` embeds this extended domain,
with `EDec.fin q` a finite (decimal) value.

Python's `Decimal.quantize(Decimal("0.01"))` rounds with the default context
rounding mode, which is `ROUND_HALF_EVEN`; `rhe`/`quantizePence` embed that.

The constants `TAX_BASIC_RATE = decimal.Decimal(0.2)` etc. are built from
*float* literals; `decimal.Decimal(0.2)` converts the IEEE-754 double nearest
to 0.2 exactly, so the embedded constants are the exact binary fractions of
those doubles, not 1/5 etc.

The repository's `tax-bands.csv` data file (read by `TaxBands.from_tax_year`
via duckdb) is not part of the source under verification; the external band
provider is a function parameter `fetch`, per the spec's "external data
provider" contract.
-/

/-- Extended decimal domain: a finite decimal (`fin`), `math.inf`, `-inf`
or a float `nan`, as produced by Python arithmetic mixing `Decimal`s and
floats in `_spread_over_checkpoints`. -/
inductive EDec where
  | fin (q : ℚ)
  | inf
  | neginf
  | nan
deriving DecidableEq

/-- Python's `<` on the extended domain: `nan` compares false with
everything, `-inf < finite < inf`. -/
def EDec.pyLt : EDec → EDec → Bool
  | .fin a, .fin b => a < b
  | .fin _, .inf => true
  | .neginf, .fin _ => true
  | .neginf, .inf => true
  | _, _ => false

/-- Python's two-argument `min`: CPython returns the second argument only
when it compares strictly less than the first (so `min(x, nan) = x`). -/
def EDec.pyMin (a b : EDec) : EDec :=
  if EDec.pyLt b a then b else a

/-- Python subtraction on the extended domain (IEEE semantics:
`inf - inf = nan`, `finite - inf = -inf`, ...). -/
def EDec.sub : EDec → EDec → EDec
  | .nan, _ => .nan
  | _, .nan => .nan
  | .fin a, .fin b => .fin (a - b)
  | .fin _, .inf => .neginf
  | .fin _, .neginf => .inf
  | .inf, .fin _ => .inf
  | .inf, .inf => .nan
  | .inf, .neginf => .inf
  | .neginf, .fin _ => .neginf
  | .neginf, .inf => .neginf
  | .neginf, .neginf => .nan

/-- Python addition on the extended domain. -/
def EDec.add : EDec → EDec → EDec
  | .nan, _ => .nan
  | _, .nan => .nan
  | .fin a, .fin b => .fin (a + b)
  | .fin _, .inf => .inf
  | .fin _, .neginf => .neginf
  | .inf, .fin _ => .inf
  | .inf, .inf => .inf
  | .inf, .neginf => .nan
  | .neginf, .fin _ => .neginf
  | .neginf, .inf => .nan
  | .neginf, .neginf => .neginf

/-- Python multiplication on the extended domain (`0 * inf = nan`). -/
def EDec.mul : EDec → EDec → EDec
  | .nan, _ => .nan
  | _, .nan => .nan
  | .fin a, .fin b => .fin (a * b)
  | .fin a, .inf => if 0 < a then .inf else if a < 0 then .neginf else .nan
  | .fin a, .neginf => if 0 < a then .neginf else if a < 0 then .inf else .nan
  | .inf, .fin b => if 0 < b then .inf else if b < 0 then .neginf else .nan
  | .neginf, .fin b => if 0 < b then .neginf else if b < 0 then .inf else .nan
  | .inf, .inf => .inf
  | .inf, .neginf => .neginf
  | .neginf, .inf => .neginf
  | .neginf, .neginf => .inf

/-- Python's `value_to_spread > ZERO` test (`nan > 0` is false). -/
def EDec.gtZero : EDec → Bool
  | .fin a => 0 < a
  | .inf => true
  | _ => false

/-- A checkpoint value in the sense of the spec: a decimal, possibly
infinite (`math.inf`); excludes `nan`/`-inf`, which are not checkpoints. -/
def EDec.isNum : EDec → Bool
  | .fin _ => true
  | .inf => true
  | _ => false

/-- The non-decreasing order on checkpoint values (`fin ≤ fin ≤ inf`). -/
def EDec.cle : EDec → EDec → Bool
  | .fin a, .fin b => a ≤ b
  | .fin _, .inf => true
  | .inf, .inf => true
  | _, _ => false

/-- The finite value carried by an `EDec` (0 on the non-finite values; the
tax engine only ever reads this off provably finite results, see
`calculate_contributions_fin`). -/
def EDec.toRat : EDec → ℚ
  | .fin q => q
  | _ => 0

/-- Python's `sum(…, start=ZERO)`: a left fold of `+` starting at 0. -/
def esum (l : List EDec) : EDec := l.foldl EDec.add (EDec.fin 0)

/-- The loop of `_spread_over_checkpoints`: walk the intervals
`pairwise([ZERO, *checkpoints])`; per interval allocate
`min(value_to_spread, interval[1] - interval[0])` and subtract it from the
running value.  Returns the per-interval portions and the final
`value_to_spread`. -/
def spreadAux (value prev : EDec) (cps : List EDec) : List EDec × EDec :=
  match cps with
  | [] => ([], value)
  | c :: rest =>
    let s := EDec.pyMin value (EDec.sub c prev)
    let t := spreadAux (EDec.sub value s) c rest
    (s :: t.1, t.2)

/-- Embeds `_spread_over_checkpoints` (calculator.py lines 181-208): spread a value
over the intervals delimited by the checkpoints, appending the final
leftover iff it is strictly positive. -/
def spread_over_checkpoints (value : EDec) (checkpoints : List EDec) : List EDec :=
  let r := spreadAux value (EDec.fin 0) checkpoints
  if EDec.gtZero r.2 then r.1 ++ [r.2] else r.1

/-- Embeds `_calculate_contributions` (calculator.py lines 211-232): spread the
amount over the checkpoints, multiply each portion by the positionally
matching rate (`zip` truncates to the shorter list) and sum. -/
def calculate_contributions (contributing_amount : EDec)
    (checkpoints rates : List EDec) : EDec :=
  let amounts := spread_over_checkpoints contributing_amount checkpoints
  esum ((amounts.zip rates).map fun ar => EDec.mul ar.1 ar.2)

/-- Embeds `_calculate_personal_allowance` (calculator.py lines 235-256). -/
def calculate_personal_allowance (taxable_income : ℚ)
    (personal_allowance_lower_limit personal_allowance_upper_limit : ℚ) : ℚ :=
  if taxable_income ≤ personal_allowance_lower_limit then taxable_income
  else
    max 0 (personal_allowance_lower_limit -
      (max (taxable_income - personal_allowance_upper_limit) 0) / 2)

/-- Round a rational to the nearest integer, ties to even: Python
`decimal`'s default `ROUND_HALF_EVEN`. -/
def rhe (x : ℚ) : ℤ :=
  if x - ⌊x⌋ < 1/2 then ⌊x⌋
  else if 1/2 < x - ⌊x⌋ then ⌊x⌋ + 1
  else if Even ⌊x⌋ then ⌊x⌋ else ⌊x⌋ + 1

/-- Embeds `value.quantize(PENCE)` with the default decimal context: round to a
multiple of 0.01, ties to even. -/
def quantizePence (q : ℚ) : ℚ := (rhe (100 * q) : ℚ) / 100

/-- Embeds `ZERO = decimal.Decimal(0)` (exact). -/
def ZERO : ℚ := 0

/-- Embeds `TAX_BASIC_RATE = decimal.Decimal(0.2)`: the double nearest to 0.2,
i.e. 0.200000000000000011102230246251565404236316680908203125. -/
def TAX_BASIC_RATE : ℚ := 3602879701896397 / 18014398509481984

/-- Embeds `TAX_HIGHER_RATE = decimal.Decimal(0.4)`: the double nearest to 0.4. -/
def TAX_HIGHER_RATE : ℚ := 3602879701896397 / 9007199254740992

/-- Embeds `TAX_ADDITIONAL_RATE = decimal.Decimal(0.45)`: the double nearest to 0.45. -/
def TAX_ADDITIONAL_RATE : ℚ := 8106479329266893 / 18014398509481984

/-- Embeds `NI_BASIC_RATE = decimal.Decimal(0.08)`: the double nearest to 0.08. -/
def NI_BASIC_RATE : ℚ := 5764607523034235 / 72057594037927936

/-- Embeds `NI_ADDITIONAL_RATE = decimal.Decimal(0.02)`: the double nearest to 0.02. -/
def NI_ADDITIONAL_RATE : ℚ := 5764607523034235 / 288230376151711744

/-- The closed `TaxYear` enumeration (calculator.py lines 31-41). -/
def TaxYear.values : List String :=
  ["2019/2020", "2020/2021", "2021/2022", "2022/2023", "2023/2024", "2024/2025"]

/-- Embeds `Deduction` (calculator.py lines 44-51). -/
structure Deduction where
  name : String
  amount : ℚ
deriving DecidableEq

/-- Embeds `NetIncome` (calculator.py lines 54-69), fields in source order. -/
structure NetIncome where
  salary : ℚ
  tax_year : String
  pre_tax_adjustments : ℚ
  taxable_income : ℚ
  personal_allowance : ℚ
  tax : ℚ
  national_insurance : ℚ
  other_deductions : List Deduction
  total_deductions : ℚ
  take_home_pay : ℚ
deriving DecidableEq

/-- Embeds `NetIncome.__post_init__` (calculator.py lines 71-86): quantize every
decimal field (and every deduction amount) to the nearest penny.  Python's
dataclass machinery runs this on every construction, so every `NetIncome`
value in the program is of the form `NetIncome.post_init raw`. -/
def NetIncome.post_init (n : NetIncome) : NetIncome :=
  { n with
    salary := quantizePence n.salary
    pre_tax_adjustments := quantizePence n.pre_tax_adjustments
    taxable_income := quantizePence n.taxable_income
    personal_allowance := quantizePence n.personal_allowance
    tax := quantizePence n.tax
    national_insurance := quantizePence n.national_insurance
    other_deductions := n.other_deductions.map fun d =>
      { name := d.name, amount := quantizePence d.amount }
    total_deductions := quantizePence n.total_deductions
    take_home_pay := quantizePence n.take_home_pay }

/-- Embeds `TaxBands` (calculator.py lines 89-100): the six thresholds the external
provider returns for a tax year (NI thresholds already annualized). -/
structure TaxBands where
  personal_allowance : ℚ
  income_limit_for_personal_allowance : ℚ
  tax_basic_rate_limit : ℚ
  tax_higher_rate_limit : ℚ
  ni_primary_threshold : ℚ
  ni_upper_earnings_limit : ℚ
deriving DecidableEq

/-- Embeds `calculate_tax` (calculator.py lines 125-178).  The external band
provider (`TaxBands.from_tax_year`, which reads `tax-bands.csv`) is the
parameter `fetch`; an absent row is the data-integrity error.  The
unrecognized-tax-year `ValueError` is raised before any provider access. -/
def calculate_tax (fetch : String → Option TaxBands) (tax_year : String)
    (salary pre_tax_adjustments : ℚ) : Except String NetIncome :=
  if tax_year ∉ TaxYear.values then
    Except.error ("Unknown tax year: " ++ tax_year)
  else
    match fetch tax_year with
    | none => Except.error "list index out of range"
    | some tax_bands =>
      let salary_less_adjustments := salary - pre_tax_adjustments
      let personal_allowance := calculate_personal_allowance salary_less_adjustments
        tax_bands.personal_allowance tax_bands.income_limit_for_personal_allowance
      let tax := (calculate_contributions (EDec.fin salary_less_adjustments)
        [EDec.fin personal_allowance, EDec.fin tax_bands.tax_basic_rate_limit,
          EDec.fin tax_bands.tax_higher_rate_limit]
        [EDec.fin ZERO, EDec.fin TAX_BASIC_RATE, EDec.fin TAX_HIGHER_RATE,
          EDec.fin TAX_ADDITIONAL_RATE]).toRat
      let national_insurance := (calculate_contributions (EDec.fin salary)
        [EDec.fin tax_bands.ni_primary_threshold,
          EDec.fin tax_bands.ni_upper_earnings_limit]
        [EDec.fin ZERO, EDec.fin NI_BASIC_RATE, EDec.fin NI_ADDITIONAL_RATE]).toRat
      let total_deductions := tax + national_insurance
      let take_home_pay := salary_less_adjustments - total_deductions
      Except.ok (NetIncome.post_init
        { salary := salary
          tax_year := tax_year
          pre_tax_adjustments := pre_tax_adjustments
          taxable_income := salary_less_adjustments - personal_allowance
          personal_allowance := personal_allowance
          tax := tax
          national_insurance := national_insurance
          other_deductions := []
          total_deductions := total_deductions
          take_home_pay := take_home_pay })

/-- Modelled from the spec: the repository's `tax-bands.csv` data file is not
under `src/`, so a plausible 2024/2025 row (six non-negative decimal
thresholds, NI values annualized) stands in for the provider's output. -/
def sampleBands : TaxBands :=
  { personal_allowance := 12570
    income_limit_for_personal_allowance := 100000
    tax_basic_rate_limit := 37700
    tax_higher_rate_limit := 125140
    ni_primary_threshold := 12570
    ni_upper_earnings_limit := 50270 }

/-- Modelled from the spec: a band provider that has a row for every year. -/
def sampleFetch : String → Option TaxBands := fun _ => some sampleBands

/-- The repo's spreader test vectors (tests/test__uk_tax_calculator.py),
validating the embedding. -/
example :
    spread_over_checkpoints (EDec.fin 10) [EDec.fin 1, EDec.fin 2, EDec.fin 3] =
      [EDec.fin 1, EDec.fin 1, EDec.fin 1, EDec.fin 7] ∧
    spread_over_checkpoints (EDec.fin 5) [EDec.fin 1, EDec.fin 1, EDec.fin 1] =
      [EDec.fin 1, EDec.fin 0, EDec.fin 0, EDec.fin 4] ∧
    spread_over_checkpoints (EDec.fin 10) [EDec.fin 4, EDec.fin 4, EDec.fin 4] =
      [EDec.fin 4, EDec.fin 0, EDec.fin 0, EDec.fin 6] ∧
    spread_over_checkpoints (EDec.fin 1)
        [EDec.fin 2, EDec.fin 2, EDec.fin 2, EDec.fin 2, EDec.fin 2] =
      [EDec.fin 1, EDec.fin 0, EDec.fin 0, EDec.fin 0, EDec.fin 0] ∧
    spread_over_checkpoints (EDec.fin 2) [EDec.fin 1, EDec.fin 2, EDec.inf] =
      [EDec.fin 1, EDec.fin 1, EDec.fin 0] := by
  refine ⟨?_, ?_, ?_, ?_, ?_⟩ <;>
    norm_num [spread_over_checkpoints, spreadAux, EDec.pyMin, EDec.pyLt, EDec.sub,
      EDec.gtZero]

/-- Modelled from the spec (sec 3): rounding to the nearest penny with ties
rounded half-up, the rounding mode the spec ascribes to `NetIncome`. -/
def quantizePenceHalfUp (q : ℚ) : ℚ := (⌊100 * q + 1/2⌋ : ℚ) / 100

/-- The taper-formula branch of `_calculate_personal_allowance`
(calculator.py lines 252-256). -/
def taper_formula (taxable_income lower upper : ℚ) : ℚ :=
  max 0 (lower - (max (taxable_income - upper) 0) / 2)

/-- Modelled from the spec (sec 4.3): the personal-allowance contract, in
the spec's words, for comparison with the source function. -/
def personal_allowance_spec (taxable_income lower upper : ℚ) : ℚ :=
  if taxable_income ≤ lower then taxable_income
  else max 0 (lower - (max (taxable_income - upper) 0) / 2)

/-- Modelled from the spec (sec 4.1): the interval widths
`c1-0, c2-c1, …, cn-c(n-1)` induced by a checkpoint list. -/
def widths (cs : List ℚ) : List ℚ := List.zipWith (fun a b => a - b) cs (0 :: cs)

/-- The unrounded personal allowance computed inside `calculate_tax`. -/
def raw_personal_allowance (b : TaxBands) (salary pre : ℚ) : ℚ :=
  calculate_personal_allowance (salary - pre) b.personal_allowance
    b.income_limit_for_personal_allowance

/-- The unrounded income tax computed inside `calculate_tax`. -/
def raw_tax (b : TaxBands) (salary pre : ℚ) : ℚ :=
  (calculate_contributions (EDec.fin (salary - pre))
    [EDec.fin (raw_personal_allowance b salary pre), EDec.fin b.tax_basic_rate_limit,
      EDec.fin b.tax_higher_rate_limit]
    [EDec.fin ZERO, EDec.fin TAX_BASIC_RATE, EDec.fin TAX_HIGHER_RATE,
      EDec.fin TAX_ADDITIONAL_RATE]).toRat

/-- The unrounded National Insurance computed inside `calculate_tax`. -/
def raw_national_insurance (b : TaxBands) (salary : ℚ) : ℚ :=
  (calculate_contributions (EDec.fin salary)
    [EDec.fin b.ni_primary_threshold, EDec.fin b.ni_upper_earnings_limit]
    [EDec.fin ZERO, EDec.fin NI_BASIC_RATE, EDec.fin NI_ADDITIONAL_RATE]).toRat

lemma spreadAux_length (value prev : EDec) (cps : List EDec) :
    (spreadAux value prev cps).1.length = cps.length := by
  induction cps generalizing value prev with
  | nil => rfl
  | cons c rest ih => simp [spreadAux, ih]

lemma foldl_add_map_fin (qs : List ℚ) (a : ℚ) :
    (qs.map EDec.fin).foldl EDec.add (EDec.fin a) = EDec.fin (a + qs.sum) := by
  induction qs generalizing a with
  | nil => simp
  | cons q t ih => simp [EDec.add, ih, add_assoc]

lemma esum_map_fin (qs : List ℚ) : esum (qs.map EDec.fin) = EDec.fin qs.sum := by
  simp [esum, foldl_add_map_fin]

lemma cle_inf_right {c : EDec} (h : EDec.cle EDec.inf c = true) : c = EDec.inf := by
  cases c <;> simp [EDec.cle] at h ⊢

lemma chain_inf_all (rest : List EDec)
    (hchain : List.Chain' (fun a b => EDec.cle a b = true) (EDec.inf :: rest)) :
    ∀ c ∈ rest, c = EDec.inf := by
  induction rest with
  | nil => simp
  | cons c t ih =>
    rw [List.chain'_cons] at hchain
    have hc : c = EDec.inf := cle_inf_right hchain.1
    subst hc
    intro x hx
    rcases List.mem_cons.1 hx with rfl | hx
    · rfl
    · exact ih hchain.2 x hx

lemma chain_le_getLastD (c : ℚ) (l : List ℚ)
    (h : List.Chain' (· ≤ ·) (c :: l)) : c ≤ l.getLastD c := by
  induction l generalizing c with
  | nil => simp
  | cons c' t ih =>
    rw [List.chain'_cons] at h
    calc c ≤ c' := h.1
      _ ≤ t.getLastD c' := ih c' h.2
      _ = (c' :: t).getLastD c := (List.getLastD_cons c c' t).symm

lemma zipWith_sub_sum (cs : List ℚ) : ∀ p : ℚ,
    (List.zipWith (fun a b => a - b) cs (p :: cs)).sum = cs.getLastD p - p := by
  induction cs with
  | nil => simp
  | cons c t ih =>
    intro p
    simp only [List.zipWith_cons_cons, List.sum_cons, ih c, List.getLastD_cons]
    ring

lemma widths_sum (cs : List ℚ) : (widths cs).sum = cs.getLastD 0 := by
  simpa using zipWith_sub_sum cs 0

lemma zip_take_length (l1 : List EDec) : ∀ l2 : List EDec,
    l1.zip (l2.take l1.length) = l1.zip l2 := by
  induction l1 with
  | nil => intro l2; simp
  | cons a t ih =>
    intro l2
    cases l2 with
    | nil => simp
    | cons b t2 => simp [List.zip_cons_cons, ih t2]

lemma foldl_add_fin_nonneg (l : List EDec) : ∀ a : ℚ, 0 ≤ a →
    (∀ x ∈ l, ∃ qx, x = EDec.fin qx ∧ 0 ≤ qx) →
    ∃ t, l.foldl EDec.add (EDec.fin a) = EDec.fin t ∧ 0 ≤ t := by
  induction l with
  | nil => exact fun a ha _ => ⟨a, rfl, ha⟩
  | cons x xs ih =>
    intro a ha hl
    obtain ⟨qx, rfl, hq⟩ := hl x (List.mem_cons_self x xs)
    have hadd : EDec.add (EDec.fin a) (EDec.fin qx) = EDec.fin (a + qx) := rfl
    simpa [List.foldl_cons, hadd] using
      ih (a + qx) (by linarith) (fun y hy => hl y (List.mem_cons_of_mem _ hy))

lemma foldl_add_fin_exists (l : List EDec) : ∀ a : ℚ,
    (∀ x ∈ l, ∃ qx, x = EDec.fin qx) →
    ∃ t, l.foldl EDec.add (EDec.fin a) = EDec.fin t := by
  induction l with
  | nil => exact fun a _ => ⟨a, rfl⟩
  | cons x xs ih =>
    intro a hl
    obtain ⟨qx, rfl⟩ := hl x (List.mem_cons_self x xs)
    have hadd : EDec.add (EDec.fin a) (EDec.fin qx) = EDec.fin (a + qx) := rfl
    simpa [List.foldl_cons, hadd] using
      ih (a + qx) (fun y hy => hl y (List.mem_cons_of_mem _ hy))

lemma spreadAux_allFin (cs : List ℚ) : ∀ p v : ℚ,
    ∃ (qs : List ℚ) (r : ℚ),
      spreadAux (EDec.fin v) (EDec.fin p) (cs.map EDec.fin) =
        (qs.map EDec.fin, EDec.fin r) := by
  induction cs with
  | nil => exact fun p v => ⟨[], v, rfl⟩
  | cons c t ih =>
    intro p v
    by_cases hw : c - p < v
    · obtain ⟨qs, r, heq⟩ := ih c (v - (c - p))
      exact ⟨(c - p) :: qs, r, by
        simp [spreadAux, EDec.pyMin, EDec.pyLt, EDec.sub, hw, heq]⟩
    · obtain ⟨qs, r, heq⟩ := ih c 0
      exact ⟨v :: qs, r, by
        simp [spreadAux, EDec.pyMin, EDec.pyLt, EDec.sub, hw, heq]⟩

lemma spreadAux_sum (cps : List EDec) : ∀ (prev : EDec) (v : ℚ), 0 ≤ v →
    (∀ c ∈ cps, c.isNum = true) →
    List.Chain' (fun a b => EDec.cle a b = true) cps →
    prev.isNum = true →
    (prev = EDec.inf → ∀ c ∈ cps, c = EDec.inf) →
    ∃ (qs : List ℚ) (r : ℚ),
      spreadAux (EDec.fin v) prev cps = (qs.map EDec.fin, EDec.fin r) ∧
        qs.sum + r = v ∧ 0 ≤ r := by
  induction cps with
  | nil => exact fun prev v hv _ _ _ _ => ⟨[], v, rfl, by simp, hv⟩
  | cons c rest ih =>
    intro prev v hv hnum hchain hprevnum hprevinf
    have hnumt : ∀ x ∈ rest, x.isNum = true :=
      fun x hx => hnum x (List.mem_cons_of_mem _ hx)
    have hchaint : List.Chain' (fun a b => EDec.cle a b = true) rest := hchain.tail
    cases prev with
    | fin p =>
      have hcnum := hnum c (List.mem_cons_self c rest)
      cases c with
      | fin q =>
        by_cases hw : q - p < v
        · obtain ⟨qs, r, heq, hsum, hr⟩ :=
            ih (EDec.fin q) (v - (q - p)) (by linarith) hnumt hchaint rfl
              (fun h => by cases h)
          refine ⟨(q - p) :: qs, r, ?_, ?_, hr⟩
          · simp [spreadAux, EDec.pyMin, EDec.pyLt, EDec.sub, hw, heq]
          · simp only [List.sum_cons]; linarith
        · obtain ⟨qs, r, heq, hsum, hr⟩ :=
            ih (EDec.fin q) 0 le_rfl hnumt hchaint rfl (fun h => by cases h)
          refine ⟨v :: qs, r, ?_, ?_, hr⟩
          · simp [spreadAux, EDec.pyMin, EDec.pyLt, EDec.sub, hw, heq]
          · simp only [List.sum_cons]; linarith
      | inf =>
        have hallinf : ∀ x ∈ rest, x = EDec.inf := chain_inf_all rest hchain
        obtain ⟨qs, r, heq, hsum, hr⟩ :=
          ih EDec.inf 0 le_rfl hnumt hchaint rfl (fun _ => hallinf)
        refine ⟨v :: qs, r, ?_, ?_, hr⟩
        · simp [spreadAux, EDec.pyMin, EDec.pyLt, EDec.sub, heq]
        · simp only [List.sum_cons]; linarith
      | neginf => simp [EDec.isNum] at hcnum
      | nan => simp [EDec.isNum] at hcnum
    | inf =>
      have hallinf := hprevinf rfl
      have hc : c = EDec.inf := hallinf c (List.mem_cons_self c rest)
      subst hc
      have hrestinf : ∀ x ∈ rest, x = EDec.inf :=
        fun x hx => hallinf x (List.mem_cons_of_mem _ hx)
      obtain ⟨qs, r, heq, hsum, hr⟩ :=
        ih EDec.inf 0 le_rfl hnumt hchaint rfl (fun _ => hrestinf)
      refine ⟨v :: qs, r, ?_, ?_, hr⟩
      · simp [spreadAux, EDec.pyMin, EDec.pyLt, EDec.sub, heq]
      · simp only [List.sum_cons]; linarith
    | neginf => simp [EDec.isNum] at hprevnum
    | nan => simp [EDec.isNum] at hprevnum

lemma spreadAux_nonneg (cps : List EDec) : ∀ (prev : EDec) (v : ℚ), 0 ≤ v →
    (∀ c ∈ cps, c.isNum = true) → prev.isNum = true →
    List.Chain' (fun a b => EDec.cle a b = true) (prev :: cps) →
    ∃ (qs : List ℚ) (r : ℚ),
      spreadAux (EDec.fin v) prev cps = (qs.map EDec.fin, EDec.fin r) ∧
        (∀ q ∈ qs, 0 ≤ q) ∧ 0 ≤ r := by
  induction cps with
  | nil => exact fun prev v hv _ _ _ => ⟨[], v, rfl, by simp, hv⟩
  | cons c rest ih =>
    intro prev v hv hnum hprevnum hchain
    rw [List.chain'_cons] at hchain
    have hcnum := hnum c (List.mem_cons_self c rest)
    have hnumt : ∀ x ∈ rest, x.isNum = true :=
      fun x hx => hnum x (List.mem_cons_of_mem _ hx)
    cases prev with
    | fin p =>
      cases c with
      | fin q =>
        have hpq : p ≤ q := by simpa [EDec.cle] using hchain.1
        by_cases hw : q - p < v
        · obtain ⟨qs, r, heq, hqs, hr⟩ :=
            ih (EDec.fin q) (v - (q - p)) (by linarith) hnumt rfl hchain.2
          refine ⟨(q - p) :: qs, r, ?_, ?_, hr⟩
          · simp [spreadAux, EDec.pyMin, EDec.pyLt, EDec.sub, hw, heq]
          · intro x hx
            rcases List.mem_cons.1 hx with rfl | hx
            · linarith
            · exact hqs x hx
        · obtain ⟨qs, r, heq, hqs, hr⟩ :=
            ih (EDec.fin q) 0 le_rfl hnumt rfl hchain.2
          refine ⟨v :: qs, r, ?_, ?_, hr⟩
          · simp [spreadAux, EDec.pyMin, EDec.pyLt, EDec.sub, hw, heq]
          · intro x hx
            rcases List.mem_cons.1 hx with rfl | hx
            · exact hv
            · exact hqs x hx
      | inf =>
        obtain ⟨qs, r, heq, hqs, hr⟩ := ih EDec.inf 0 le_rfl hnumt rfl hchain.2
        refine ⟨v :: qs, r, ?_, ?_, hr⟩
        · simp [spreadAux, EDec.pyMin, EDec.pyLt, EDec.sub, heq]
        · intro x hx
          rcases List.mem_cons.1 hx with rfl | hx
          · exact hv
          · exact hqs x hx
      | neginf => simp [EDec.isNum] at hcnum
      | nan => simp [EDec.isNum] at hcnum
    | inf =>
      have hc : c = EDec.inf := cle_inf_right hchain.1
      subst hc
      obtain ⟨qs, r, heq, hqs, hr⟩ := ih EDec.inf 0 le_rfl hnumt rfl hchain.2
      refine ⟨v :: qs, r, ?_, ?_, hr⟩
      · simp [spreadAux, EDec.pyMin, EDec.pyLt, EDec.sub, heq]
      · intro x hx
        rcases List.mem_cons.1 hx with rfl | hx
        · exact hv
        · exact hqs x hx
    | neginf => simp [EDec.isNum] at hprevnum
    | nan => simp [EDec.isNum] at hprevnum

lemma spreadAux_rem (cs : List ℚ) : ∀ (p v : ℚ), 0 ≤ v →
    List.Chain' (· ≤ ·) cs →
    (spreadAux (EDec.fin v) (EDec.fin p) (cs.map EDec.fin)).2 =
      EDec.fin (max (v - (cs.getLastD p - p)) 0) := by
  induction cs with
  | nil =>
    intro p v hv _
    simp only [List.map_nil, spreadAux, List.getLastD_nil]
    rw [sub_self, sub_zero, max_eq_left hv]
  | cons c t ih =>
    intro p v hv hchain
    have hct : c ≤ t.getLastD c := chain_le_getLastD c t hchain
    rw [List.getLastD_cons]
    by_cases hw : c - p < v
    · have hrec := ih c (v - (c - p)) (by linarith) hchain.tail
      rw [show max (v - (t.getLastD c - p)) 0 =
            max ((v - (c - p)) - (t.getLastD c - c)) 0 by ring_nf]
      simpa [spreadAux, EDec.pyMin, EDec.pyLt, EDec.sub, hw] using hrec
    · have hrec := ih c 0 le_rfl hchain.tail
      have h0 : max (0 - (t.getLastD c - c)) 0 = 0 := max_eq_right (by linarith)
      have h1 : max (v - (t.getLastD c - p)) 0 = 0 := max_eq_right (by linarith)
      rw [h1]
      rw [h0] at hrec
      simpa [spreadAux, EDec.pyMin, EDec.pyLt, EDec.sub, hw] using hrec

lemma spreadAux_infTail (rest : List EDec) :
    (∀ c ∈ rest, c = EDec.inf) →
    (spreadAux (EDec.fin 0) EDec.inf rest).2 = EDec.fin 0 := by
  induction rest with
  | nil => intro _; rfl
  | cons c t ih =>
    intro hall
    have hc := hall c (List.mem_cons_self c t)
    subst hc
    simpa [spreadAux, EDec.pyMin, EDec.pyLt, EDec.sub] using
      ih (fun x hx => hall x (List.mem_cons_of_mem _ hx))

lemma spreadAux_rem_of_inf (cps : List EDec) : ∀ (p v : ℚ),
    (∀ c ∈ cps, c.isNum = true) →
    List.Chain' (fun a b => EDec.cle a b = true) cps →
    EDec.inf ∈ cps →
    (spreadAux (EDec.fin v) (EDec.fin p) cps).2 = EDec.fin 0 := by
  induction cps with
  | nil => intro p v _ _ h; cases h
  | cons c rest ih =>
    intro p v hnum hchain hmem
    have hnumt : ∀ x ∈ rest, x.isNum = true :=
      fun x hx => hnum x (List.mem_cons_of_mem _ hx)
    cases c with
    | fin q =>
      have hmemt : EDec.inf ∈ rest := by
        rcases List.mem_cons.1 hmem with h | h
        · cases h
        · exact h
      by_cases hw : q - p < v
      · simpa [spreadAux, EDec.pyMin, EDec.pyLt, EDec.sub, hw] using
          ih q (v - (q - p)) hnumt hchain.tail hmemt
      · simpa [spreadAux, EDec.pyMin, EDec.pyLt, EDec.sub, hw] using
          ih q 0 hnumt hchain.tail hmemt
    | inf =>
      have hallinf := chain_inf_all rest hchain
      simpa [spreadAux, EDec.pyMin, EDec.pyLt, EDec.sub] using
        spreadAux_infTail rest hallinf
    | neginf =>
      have := hnum _ (List.mem_cons_self _ rest)
      simp [EDec.isNum] at this
    | nan =>
      have := hnum _ (List.mem_cons_self _ rest)
      simp [EDec.isNum] at this

/-- On the all-finite inputs that `calculate_tax` passes, the contribution
calculator returns a finite value, justifying reading it through
`EDec.toRat` in the embedding of the tax engine. -/
lemma calculate_contributions_fin (v : ℚ) (cs rs : List ℚ) :
    ∃ t, calculate_contributions (EDec.fin v) (cs.map EDec.fin) (rs.map EDec.fin) =
      EDec.fin t := by
  obtain ⟨qs, r, heq⟩ := spreadAux_allFin cs 0 v
  have hamounts : ∀ x ∈ spread_over_checkpoints (EDec.fin v) (cs.map EDec.fin),
      ∃ qx, x = EDec.fin qx := by
    intro x hx
    rw [spread_over_checkpoints, heq] at hx
    by_cases hr : EDec.gtZero (EDec.fin r) = true
    · rw [if_pos hr] at hx
      rcases List.mem_append.1 hx with hx | hx
      · obtain ⟨qx, _, rfl⟩ := List.mem_map.1 hx
        exact ⟨qx, rfl⟩
      · exact ⟨r, List.mem_singleton.1 hx⟩
    · rw [if_neg hr] at hx
      obtain ⟨qx, _, rfl⟩ := List.mem_map.1 hx
      exact ⟨qx, rfl⟩
  apply foldl_add_fin_exists
  intro x hx
  obtain ⟨⟨a, b⟩, hab, rfl⟩ := List.mem_map.1 hx
  obtain ⟨ha, hb⟩ := List.of_mem_zip hab
  obtain ⟨qa, rfl⟩ := hamounts a ha
  obtain ⟨qb, _, rfl⟩ := List.mem_map.1 hb
  exact ⟨qa * qb, rfl⟩

lemma rhe_spec (x : ℚ) : |x - rhe x| ≤ 1/2 ∧ (|x - rhe x| = 1/2 → Even (rhe x)) := by
  have h0 : (⌊x⌋ : ℚ) ≤ x := Int.floor_le x
  have h1 : x < ⌊x⌋ + 1 := Int.lt_floor_add_one x
  unfold rhe
  split_ifs with hA hB hE
  · constructor
    · rw [abs_of_nonneg (by linarith)]; linarith
    · intro h; exfalso; rw [abs_of_nonneg (by linarith)] at h; linarith
  · push_cast
    constructor
    · rw [abs_of_nonpos (by linarith)]; linarith
    · intro h; exfalso; rw [abs_of_nonpos (by linarith)] at h; linarith
  · have hEq : x - ⌊x⌋ = 1/2 := le_antisymm (not_lt.1 hB) (not_lt.1 hA)
    exact ⟨by rw [abs_of_nonneg (by linarith)]; linarith, fun _ => hE⟩
  · have hEq : x - ⌊x⌋ = 1/2 := le_antisymm (not_lt.1 hB) (not_lt.1 hA)
    push_cast
    constructor
    · rw [abs_of_nonpos (by linarith)]; linarith
    · intro _
      exact Int.even_add_one.2 hE

lemma quantizePence_spec (q : ℚ) :
    ∃ m : ℤ, quantizePence q = (m : ℚ) / 100 ∧ |q - (m : ℚ) / 100| ≤ 1 / 200 ∧
      (|q - (m : ℚ) / 100| = 1 / 200 → Even m) := by
  obtain ⟨h1, h2⟩ := rhe_spec (100 * q)
  have key : q - ((rhe (100 * q) : ℚ)) / 100 = (100 * q - rhe (100 * q)) / 100 := by
    ring
  refine ⟨rhe (100 * q), rfl, ?_, ?_⟩
  · rw [key, abs_div, abs_of_pos (show (0:ℚ) < 100 by norm_num)]
    linarith
  · rw [key, abs_div, abs_of_pos (show (0:ℚ) < 100 by norm_num)]
    intro h
    exact h2 (by linarith)

/-- Claim C2, counterexample: a `NetIncome` constructed with salary 0.125 gets
salary field 0.12 — Python `decimal`'s default rounding is ROUND_HALF_EVEN —
while rounding to the nearest penny with ties half-up would give 0.13. -/
theorem C2_counterexample :
    (NetIncome.post_init
      { salary := 1/8, tax_year := "2024/2025", pre_tax_adjustments := 0,
        taxable_income := 0, personal_allowance := 0, tax := 0,
        national_insurance := 0, other_deductions := [], total_deductions := 0,
        take_home_pay := 0 }).salary = 12/100 ∧
    quantizePenceHalfUp (1/8) = 13/100 ∧ (12 : ℚ)/100 ≠ 13/100 := by
  refine ⟨?_, ?_, by norm_num⟩
  · show quantizePence (1/8) = 12/100
    norm_num [quantizePence, rhe, Int.even_iff]
  · norm_num [quantizePenceHalfUp]

/-- Claim C2, amended: whenever a `NetIncome` is constructed, every decimal
monetary field — salary, pre-tax adjustments, taxable income, personal
allowance, tax, national insurance, each other-deduction amount, total
deductions, take-home pay — is quantized to exactly two decimal places, to
the nearest penny, with ties rounded half-to-EVEN (Python decimal's default
ROUND_HALF_EVEN), not half-up. -/
theorem C2_amended (n : NetIncome) :
    ((NetIncome.post_init n).salary = quantizePence n.salary ∧
     (NetIncome.post_init n).pre_tax_adjustments = quantizePence n.pre_tax_adjustments ∧
     (NetIncome.post_init n).taxable_income = quantizePence n.taxable_income ∧
     (NetIncome.post_init n).personal_allowance = quantizePence n.personal_allowance ∧
     (NetIncome.post_init n).tax = quantizePence n.tax ∧
     (NetIncome.post_init n).national_insurance = quantizePence n.national_insurance ∧
     (NetIncome.post_init n).other_deductions = n.other_deductions.map (fun d =>
        { name := d.name, amount := quantizePence d.amount }) ∧
     (NetIncome.post_init n).total_deductions = quantizePence n.total_deductions ∧
     (NetIncome.post_init n).take_home_pay = quantizePence n.take_home_pay) ∧
    ∀ q : ℚ, ∃ m : ℤ, quantizePence q = (m : ℚ) / 100 ∧
      |q - (m : ℚ) / 100| ≤ 1 / 200 ∧ (|q - (m : ℚ) / 100| = 1 / 200 → Even m) :=
  ⟨⟨rfl, rfl, rfl, rfl, rfl, rfl, rfl, rfl, rfl⟩, quantizePence_spec⟩

/-- Claim C5: the personal-allowance taper agrees with the spec's contract:
income itself at or below the lower limit, the taper formula otherwise, with
exact boundary behaviour. -/
theorem C5_personal_allowance (ti lo hi : ℚ) :
    calculate_personal_allowance ti lo hi = personal_allowance_spec ti lo hi ∧
    (ti ≤ lo → calculate_personal_allowance ti lo hi = ti) ∧
    (¬ ti ≤ lo →
      calculate_personal_allowance ti lo hi = max 0 (lo - (max (ti - hi) 0) / 2)) ∧
    calculate_personal_allowance lo lo hi = lo ∧
    (0 ≤ lo → lo < hi → calculate_personal_allowance hi lo hi = lo) := by
  refine ⟨rfl, fun h => by simp [calculate_personal_allowance, h],
    fun h => by simp [calculate_personal_allowance, h],
    by simp [calculate_personal_allowance], fun hlo hlt => ?_⟩
  rw [calculate_personal_allowance, if_neg (not_le.2 hlt)]
  simp [sub_self, max_eq_right hlo]

theorem C5_witness :
    calculate_personal_allowance 5 10 20 = 5 ∧
    calculate_personal_allowance 20 10 20 = 10 :=
  ⟨(C5_personal_allowance 5 10 20).2.1 (by norm_num),
   (C5_personal_allowance 20 10 20).2.2.2.2 (by norm_num) (by norm_num)⟩

/-- Claim C9, counterexample: at income = upper-limit = 5 with lower limit 10
(upper ≤ lower) the taper formula gives 10 while the income-branch gives 5 —
the branches do not agree; and with lower = 10 < upper = 20 the allowance at
incomes 100 and 200 (both beyond the upper limit) is 0 both times — not
strictly decreasing. -/
theorem C9_counterexample :
    (calculate_personal_allowance 5 10 5 = 5 ∧ taper_formula 5 10 5 = 10 ∧
      (5 : ℚ) ≠ 10) ∧
    ((10:ℚ) < 20 ∧ (20:ℚ) < 100 ∧ (100:ℚ) < 200 ∧
      calculate_personal_allowance 100 10 20 = 0 ∧
      calculate_personal_allowance 200 10 20 = 0) := by
  norm_num [calculate_personal_allowance, taper_formula]

/-- Claim C9, amended: at income equal to the upper limit with
upper ≤ lower, the taper formula agrees with the income-branch exactly when
upper = lower ≥ 0; and for lower < upper the allowance strictly decreases
beyond the upper limit for as long as it is still positive. -/
theorem C9_amended (lo hi : ℚ) :
    (hi ≤ lo → (taper_formula hi lo hi = hi ↔ hi = lo ∧ 0 ≤ lo)) ∧
    (lo < hi → ∀ i1 i2 : ℚ, hi < i1 → i1 < i2 →
      0 < calculate_personal_allowance i1 lo hi →
      calculate_personal_allowance i2 lo hi < calculate_personal_allowance i1 lo hi) := by
  constructor
  · intro hle
    have hform : taper_formula hi lo hi = max 0 lo := by
      simp [taper_formula, sub_self]
    rw [hform]
    constructor
    · intro h
      rcases le_or_lt 0 lo with h0 | h0
      · rw [max_eq_right h0] at h
        exact ⟨h.symm, h0⟩
      · rw [max_eq_left h0.le] at h
        exfalso
        linarith [h ▸ hle]
    · rintro ⟨rfl, h0⟩
      exact max_eq_right h0
  · intro hlt i1 i2 hi1 h12 hpos
    have h1 : ¬ i1 ≤ lo := by linarith
    have h2 : ¬ i2 ≤ lo := by linarith
    rw [calculate_personal_allowance, if_neg h1] at hpos
    rw [calculate_personal_allowance, if_neg h2, calculate_personal_allowance,
      if_neg h1]
    have hm1 : max (i1 - hi) 0 = i1 - hi := max_eq_left (by linarith)
    have hm2 : max (i2 - hi) 0 = i2 - hi := max_eq_left (by linarith)
    rw [hm1] at hpos
    rw [hm1, hm2]
    have harg1 : 0 < lo - (i1 - hi) / 2 := by
      by_contra hc
      push_neg at hc
      rw [max_eq_left hc] at hpos
      exact lt_irrefl 0 hpos
    rw [max_eq_right harg1.le]
    exact max_lt harg1 (by linarith)

theorem C9_witness :
    (taper_formula 5 5 5 = 5 ↔ (5:ℚ) = 5 ∧ (0:ℚ) ≤ 5) ∧
    calculate_personal_allowance 4 1 2 < calculate_personal_allowance 3 1 2 :=
  ⟨(C9_amended 5 5).1 le_rfl,
   (C9_amended 1 2).2 (by norm_num) 3 4 (by norm_num) (by norm_num)
     (by norm_num [calculate_personal_allowance])⟩

/-- Claim C7: an unrecognized tax-year string makes `calculate_tax` return the
validation error `"Unknown tax year: " ++ value` (naming the offending
value) regardless of the band provider — so before any band lookup — while
every string in the closed `TaxYear` set passes validation, and with band
data present the computation returns a result. -/
theorem C7_tax_year_validation :
    (∀ (fetch : String → Option TaxBands) (y : String) (s p : ℚ),
      y ∉ TaxYear.values →
      calculate_tax fetch y s p = Except.error ("Unknown tax year: " ++ y)) ∧
    (∀ (fetch : String → Option TaxBands) (y : String) (s p : ℚ) (b : TaxBands),
      y ∈ TaxYear.values → fetch y = some b →
      ∃ n, calculate_tax fetch y s p = Except.ok n) := by
  constructor
  · intro fetch y s p hy
    rw [calculate_tax, if_pos hy]
  · intro fetch y s p b hy hb
    rw [calculate_tax, if_neg (not_not_intro hy), hb]
    exact ⟨_, rfl⟩

theorem C7_witness :
    calculate_tax (fun _ => none) "bad-year" 0 0 =
      Except.error ("Unknown tax year: " ++ "bad-year") ∧
    ∃ n, calculate_tax sampleFetch "2024/2025" 0 0 = Except.ok n :=
  ⟨C7_tax_year_validation.1 _ _ _ _ (by decide),
   C7_tax_year_validation.2 _ _ _ _ sampleBands (by decide) rfl⟩

/-- Claim C3, counterexample: with value −1 and the (vacuously non-decreasing)
empty checkpoint list, the spreader returns `[]` — the negative leftover is
not appended — so the portions sum to 0, not to the input value. -/
theorem C3_counterexample :
    spread_over_checkpoints (EDec.fin (-1)) [] = [] ∧
    esum (spread_over_checkpoints (EDec.fin (-1)) []) = EDec.fin 0 ∧
    EDec.fin 0 ≠ EDec.fin (-1) := by
  refine ⟨?_, ?_, ?_⟩ <;>
    norm_num [spread_over_checkpoints, spreadAux, EDec.gtZero, esum]

/-- Claim C3, amended: for every NON-NEGATIVE value and every non-decreasing
list of checkpoints, the sum of the portions returned by the spreader equals
the input value exactly.  (For a negative value the claim fails — see the
counterexample — matching the spec's own restriction of the spreader
contract to non-negative values.) -/
theorem C3_amended (v : ℚ) (cps : List EDec) (hv : 0 ≤ v)
    (hnum : ∀ c ∈ cps, c.isNum = true)
    (hsorted : List.Chain' (fun a b => EDec.cle a b = true) cps) :
    esum (spread_over_checkpoints (EDec.fin v) cps) = EDec.fin v := by
  obtain ⟨qs, r, heq, hsum, hr⟩ :=
    spreadAux_sum cps (EDec.fin 0) v hv hnum hsorted rfl (fun h => by cases h)
  rw [spread_over_checkpoints]
  rw [heq]
  by_cases hgt : EDec.gtZero (EDec.fin r) = true
  · rw [if_pos hgt]
    rw [show (qs.map EDec.fin) ++ [EDec.fin r] = (qs ++ [r]).map EDec.fin by simp]
    rw [esum_map_fin]
    rw [List.sum_append, List.sum_singleton]
    exact congrArg EDec.fin hsum
  · rw [if_neg hgt]
    have hr0 : r = 0 := by
      simp only [EDec.gtZero, decide_eq_true_eq] at hgt
      push_neg at hgt
      linarith
    rw [esum_map_fin]
    exact congrArg EDec.fin (by linarith [hsum, hr0])

theorem C3_witness :
    esum (spread_over_checkpoints (EDec.fin 10)
        [EDec.fin 1, EDec.fin 2, EDec.fin 3]) = EDec.fin 10 ∧
    esum (spread_over_checkpoints (EDec.fin 2)
        [EDec.fin 1, EDec.fin 2, EDec.inf]) = EDec.fin 2 :=
  ⟨C3_amended 10 _ (by norm_num) (by simp [EDec.isNum])
      (by norm_num [List.chain'_cons, EDec.cle]),
   C3_amended 2 _ (by norm_num) (by simp [EDec.isNum])
      (by norm_num [List.chain'_cons, EDec.cle])⟩

/-- Claim C4: the spreader's output length is n or n+1, n+1 exactly when a
strictly positive amount remains after all intervals; with a finite last
checkpoint and value exceeding the total interval width, the output has
exactly n+1 entries ending in the excess; with an infinite last checkpoint
no trailing leftover entry is appended. -/
theorem C4_output_shape :
    (∀ (value : EDec) (cps : List EDec),
      ((spread_over_checkpoints value cps).length = cps.length ∨
        (spread_over_checkpoints value cps).length = cps.length + 1) ∧
      ((spread_over_checkpoints value cps).length = cps.length + 1 ↔
        EDec.gtZero (spreadAux value (EDec.fin 0) cps).2 = true)) ∧
    (∀ (v : ℚ) (cs : List ℚ), 0 ≤ v → List.Chain' (· ≤ ·) cs →
      (widths cs).sum < v →
      (spread_over_checkpoints (EDec.fin v) (cs.map EDec.fin)).length =
          cs.length + 1 ∧
        (spread_over_checkpoints (EDec.fin v) (cs.map EDec.fin)).getLast? =
          some (EDec.fin (v - (widths cs).sum))) ∧
    (∀ (v : ℚ) (cps : List EDec),
      (∀ c ∈ cps, c.isNum = true) →
      List.Chain' (fun a b => EDec.cle a b = true) cps →
      cps.getLast? = some EDec.inf →
      (spread_over_checkpoints (EDec.fin v) cps).length = cps.length) := by
  refine ⟨?_, ?_, ?_⟩
  · intro value cps
    rw [spread_over_checkpoints]
    by_cases hgt : EDec.gtZero (spreadAux value (EDec.fin 0) cps).2 = true
    · rw [if_pos hgt]
      simp [spreadAux_length, hgt]
    · rw [if_neg hgt]
      simp [spreadAux_length, hgt]
  · intro v cs hv hchain hlt
    rw [widths_sum] at hlt ⊢
    have hrem := spreadAux_rem cs 0 v hv hchain
    rw [sub_zero] at hrem
    have hmax : max (v - cs.getLastD 0) 0 = v - cs.getLastD 0 :=
      max_eq_left (by linarith)
    rw [hmax] at hrem
    have hgt : EDec.gtZero (spreadAux (EDec.fin v) (EDec.fin 0)
        (cs.map EDec.fin)).2 = true := by
      rw [hrem]
      simp only [EDec.gtZero, decide_eq_true_eq]
      linarith
    rw [spread_over_checkpoints, if_pos hgt]
    constructor
    · simp [spreadAux_length]
    · rw [hrem, List.getLast?_concat]
  · intro v cps hnum hchain hlast
    have hmem : EDec.inf ∈ cps := List.mem_of_getLast?_eq_some hlast
    have hrem := spreadAux_rem_of_inf cps 0 v hnum hchain hmem
    have hgt : ¬ EDec.gtZero (spreadAux (EDec.fin v) (EDec.fin 0) cps).2 = true := by
      rw [hrem]
      simp [EDec.gtZero]
    rw [spread_over_checkpoints, if_neg hgt]
    exact spreadAux_length _ _ _

theorem C4_witness :
    ((spread_over_checkpoints (EDec.fin 10)
        ([(1:ℚ), 2, 3].map EDec.fin)).length = 4 ∧
      (spread_over_checkpoints (EDec.fin 10)
        ([(1:ℚ), 2, 3].map EDec.fin)).getLast? =
          some (EDec.fin (10 - (widths [(1:ℚ), 2, 3]).sum))) ∧
    (spread_over_checkpoints (EDec.fin 2)
        [EDec.fin 1, EDec.fin 2, EDec.inf]).length = 3 :=
  ⟨C4_output_shape.2.1 10 [1, 2, 3] (by norm_num)
      (by norm_num [List.chain'_cons])
      (by norm_num [widths]),
   C4_output_shape.2.2 2 [EDec.fin 1, EDec.fin 2, EDec.inf]
      (by simp [EDec.isNum]) (by simp [List.chain'_cons, EDec.cle]) rfl⟩

/-- Claim C8: the contribution calculator is the positional sum of spread
portion × rate; `zip` truncation means that when the spreader returns only
n portions (no leftover) only the first n rates are used and later rates are
ignored; and the result is non-negative for a non-negative amount,
non-decreasing non-negative checkpoints and non-negative rates. -/
theorem C8_contributions :
    (∀ (a : EDec) (cps rates : List EDec),
      calculate_contributions a cps rates =
        esum (((spread_over_checkpoints a cps).zip rates).map fun ar =>
          EDec.mul ar.1 ar.2)) ∧
    (∀ (a : EDec) (cps rates : List EDec),
      (spread_over_checkpoints a cps).length = cps.length →
      calculate_contributions a cps rates =
        calculate_contributions a cps (rates.take cps.length)) ∧
    (∀ (q : ℚ) (cps rates : List EDec), 0 ≤ q →
      (∀ c ∈ cps, c.isNum = true) →
      List.Chain' (fun a b => EDec.cle a b = true) (EDec.fin 0 :: cps) →
      (∀ r ∈ rates, ∃ x, r = EDec.fin x ∧ 0 ≤ x) →
      ∃ t, calculate_contributions (EDec.fin q) cps rates = EDec.fin t ∧ 0 ≤ t) := by
  refine ⟨fun a cps rates => rfl, ?_, ?_⟩
  · intro a cps rates h
    simp only [calculate_contributions]
    rw [← h, zip_take_length]
  · intro q cps rates hq hnum hchain hrates
    obtain ⟨qs, r, heq, hqs, hr⟩ := spreadAux_nonneg cps (EDec.fin 0) q hq hnum rfl hchain
    have hamounts : ∀ x ∈ spread_over_checkpoints (EDec.fin q) cps,
        ∃ qx, x = EDec.fin qx ∧ 0 ≤ qx := by
      intro x hx
      rw [spread_over_checkpoints, heq] at hx
      by_cases hgt : EDec.gtZero (EDec.fin r) = true
      · rw [if_pos hgt] at hx
        rcases List.mem_append.1 hx with hx | hx
        · obtain ⟨qx, hm, rfl⟩ := List.mem_map.1 hx
          exact ⟨qx, rfl, hqs qx hm⟩
        · exact ⟨r, List.mem_singleton.1 hx, hr⟩
      · rw [if_neg hgt] at hx
        obtain ⟨qx, hm, rfl⟩ := List.mem_map.1 hx
        exact ⟨qx, rfl, hqs qx hm⟩
    simp only [calculate_contributions, esum]
    apply foldl_add_fin_nonneg _ 0 le_rfl
    intro x hx
    obtain ⟨⟨u, w⟩, hab, rfl⟩ := List.mem_map.1 hx
    obtain ⟨hu, hw⟩ := List.of_mem_zip hab
    obtain ⟨qu, rfl, hqu⟩ := hamounts u hu
    obtain ⟨qw, rfl, hqw⟩ := hrates w hw
    exact ⟨qu * qw, rfl, mul_nonneg hqu hqw⟩

theorem C8_witness :
    calculate_contributions (EDec.fin 2) [EDec.fin 1, EDec.fin 2]
        [EDec.fin 0, EDec.fin 1, EDec.fin 5] =
      calculate_contributions (EDec.fin 2) [EDec.fin 1, EDec.fin 2]
        ([EDec.fin 0, EDec.fin 1, EDec.fin 5].take 2) ∧
    ∃ t, calculate_contributions (EDec.fin 10) [EDec.fin 1, EDec.fin 2]
        [EDec.fin 0, EDec.fin 1, EDec.fin 3] = EDec.fin t ∧ 0 ≤ t := by
  constructor
  · apply C8_contributions.2.1
    norm_num [spread_over_checkpoints, spreadAux, EDec.pyMin, EDec.pyLt, EDec.sub,
      EDec.gtZero]
  · apply C8_contributions.2.2 10 _ _ (by norm_num) (by simp [EDec.isNum])
      (by norm_num [List.chain'_cons, EDec.cle])
    intro r hr
    fin_cases hr
    · exact ⟨0, rfl, le_rfl⟩
    · exact ⟨1, rfl, by norm_num⟩
    · exact ⟨3, rfl, by norm_num⟩

/-- The `NetIncome` that `calculate_tax` produces for tax year 2024/2025,
salary 0.015 and pre-tax adjustments 0.005 (fields already rounded). -/
def C6net : NetIncome :=
  { salary := 1/50, tax_year := "2024/2025", pre_tax_adjustments := 0,
    taxable_income := 0, personal_allowance := 1/100, tax := 0,
    national_insurance := 0, other_deductions := [], total_deductions := 0,
    take_home_pay := 1/100 }

/-- Claim C6, counterexample: for salary 0.015 and adjustments 0.005 the
*rounded* fields do not satisfy the claimed identities: salary rounds to
0.02, adjustments to 0.00, personal allowance to 0.01, but taxable income
and take-home pay were rounded from the raw values, giving
0 ≠ (0.02 − 0) − 0.01 and 0.01 ≠ (0.02 − 0) − 0. -/
theorem C6_counterexample :
    calculate_tax sampleFetch "2024/2025" (3/200) (1/200) = Except.ok C6net ∧
    C6net.taxable_income ≠
      (C6net.salary - C6net.pre_tax_adjustments) - C6net.personal_allowance ∧
    C6net.take_home_pay ≠
      (C6net.salary - C6net.pre_tax_adjustments) - C6net.total_deductions := by
  refine ⟨?_, by norm_num [C6net], by norm_num [C6net]⟩
  norm_num [calculate_tax, sampleFetch, sampleBands, TaxYear.values, C6net,
    NetIncome.post_init, calculate_personal_allowance, calculate_contributions,
    spread_over_checkpoints, spreadAux, esum, EDec.pyMin, EDec.pyLt, EDec.sub,
    EDec.add, EDec.mul, EDec.gtZero, EDec.toRat, quantizePence, rhe, ZERO,
    TAX_BASIC_RATE, TAX_HIGHER_RATE, TAX_ADDITIONAL_RATE, NI_BASIC_RATE,
    NI_ADDITIONAL_RATE, Int.even_iff]

/-- Claim C6, amended: the invariants hold exactly on the *unrounded* values
from which `calculate_tax` builds the result: every returned `NetIncome` has
`taxable_income`, `total_deductions` and `take_home_pay` equal to the
penny-rounding of, respectively, `(salary − adjustments) − allowance`,
`tax + national_insurance` and `(salary − adjustments) − (tax + NI)`, where
allowance, tax and NI are the unrounded quantities whose roundings are the
corresponding fields.  (On the already-rounded fields the identities can
fail by a penny — see the counterexample.) -/
theorem C6_amended (fetch : String → Option TaxBands) (y : String) (s p : ℚ)
    (b : TaxBands) (n : NetIncome) (hf : fetch y = some b)
    (h : calculate_tax fetch y s p = Except.ok n) :
    n.personal_allowance = quantizePence (raw_personal_allowance b s p) ∧
    n.tax = quantizePence (raw_tax b s p) ∧
    n.national_insurance = quantizePence (raw_national_insurance b s) ∧
    n.taxable_income = quantizePence ((s - p) - raw_personal_allowance b s p) ∧
    n.total_deductions = quantizePence (raw_tax b s p + raw_national_insurance b s) ∧
    n.take_home_pay =
      quantizePence ((s - p) - (raw_tax b s p + raw_national_insurance b s)) := by
  by_cases hy : y ∈ TaxYear.values
  · simp only [calculate_tax] at h
    rw [if_neg (not_not_intro hy), hf] at h
    obtain rfl := (Except.ok.inj h).symm
    exact ⟨rfl, rfl, rfl, rfl, rfl, rfl⟩
  · simp only [calculate_tax] at h
    rw [if_pos hy] at h
    cases h

/-- The all-zero `NetIncome` that `calculate_tax` produces for tax year
2024/2025 with salary 0 and adjustments 0. -/
def C6netZero : NetIncome :=
  { salary := 0, tax_year := "2024/2025", pre_tax_adjustments := 0,
    taxable_income := 0, personal_allowance := 0, tax := 0,
    national_insurance := 0, other_deductions := [], total_deductions := 0,
    take_home_pay := 0 }

lemma calculate_tax_zero :
    calculate_tax sampleFetch "2024/2025" 0 0 = Except.ok C6netZero := by
  norm_num [calculate_tax, sampleFetch, sampleBands, TaxYear.values, C6netZero,
    NetIncome.post_init, calculate_personal_allowance, calculate_contributions,
    spread_over_checkpoints, spreadAux, esum, EDec.pyMin, EDec.pyLt, EDec.sub,
    EDec.add, EDec.mul, EDec.gtZero, EDec.toRat, quantizePence, rhe, ZERO,
    TAX_BASIC_RATE, TAX_HIGHER_RATE, TAX_ADDITIONAL_RATE, NI_BASIC_RATE,
    NI_ADDITIONAL_RATE, Int.even_iff]

theorem C6_witness :
    C6netZero.personal_allowance =
      quantizePence (raw_personal_allowance sampleBands 0 0) ∧
    C6netZero.tax = quantizePence (raw_tax sampleBands 0 0) ∧
    C6netZero.national_insurance =
      quantizePence (raw_national_insurance sampleBands 0) ∧
    C6netZero.taxable_income =
      quantizePence ((0 - 0) - raw_personal_allowance sampleBands 0 0) ∧
    C6netZero.total_deductions =
      quantizePence (raw_tax sampleBands 0 0 + raw_national_insurance sampleBands 0) ∧
    C6netZero.take_home_pay =
      quantizePence ((0 - 0) -
        (raw_tax sampleBands 0 0 + raw_national_insurance sampleBands 0)) :=
  C6_amended sampleFetch "2024/2025" 0 0 sampleBands C6netZero rfl
    calculate_tax_zero

lemma calculate_tax_ok_fields (fetch : String → Option TaxBands) (y : String)
    (s p : ℚ) (b : TaxBands) (n : NetIncome) (hf : fetch y = some b)
    (h : calculate_tax fetch y s p = Except.ok n) :
    n = NetIncome.post_init
      { salary := s, tax_year := y, pre_tax_adjustments := p,
        taxable_income := (s - p) - raw_personal_allowance b s p,
        personal_allowance := raw_personal_allowance b s p,
        tax := raw_tax b s p, national_insurance := raw_national_insurance b s,
        other_deductions := [],
        total_deductions := raw_tax b s p + raw_national_insurance b s,
        take_home_pay :=
          (s - p) - (raw_tax b s p + raw_national_insurance b s) } := by
  by_cases hy : y ∈ TaxYear.values
  · simp only [calculate_tax] at h
    rw [if_neg (not_not_intro hy), hf] at h
    exact (Except.ok.inj h).symm
  · simp only [calculate_tax] at h
    rw [if_pos hy] at h
    cases h

/-- The `NetIncome` that `calculate_tax` produces for tax year 2024/2025,
salary 0.125 and pre-tax adjustments 0 (fields already rounded). -/
def C10net : NetIncome :=
  { salary := 3/25, tax_year := "2024/2025", pre_tax_adjustments := 0,
    taxable_income := 0, personal_allowance := 3/25, tax := 0,
    national_insurance := 0, other_deductions := [], total_deductions := 0,
    take_home_pay := 3/25 }

/-- Claim C10, counterexample: for salary 0.125 (below the allowance lower
limit) the returned `personal_allowance` field is the rounded 0.12, not
`salary - pre_tax_adjustments = 0.125` as claimed. -/
theorem C10_counterexample :
    calculate_tax sampleFetch "2024/2025" (1/8) 0 = Except.ok C10net ∧
    (1:ℚ)/8 - 0 ≤ sampleBands.personal_allowance ∧
    C10net.personal_allowance ≠ (1:ℚ)/8 - 0 := by
  refine ⟨?_, by norm_num [sampleBands], by norm_num [C10net]⟩
  norm_num [calculate_tax, sampleFetch, sampleBands, TaxYear.values, C10net,
    NetIncome.post_init, calculate_personal_allowance, calculate_contributions,
    spread_over_checkpoints, spreadAux, esum, EDec.pyMin, EDec.pyLt, EDec.sub,
    EDec.add, EDec.mul, EDec.gtZero, EDec.toRat, quantizePence, rhe, ZERO,
    TAX_BASIC_RATE, TAX_HIGHER_RATE, TAX_ADDITIONAL_RATE, NI_BASIC_RATE,
    NI_ADDITIONAL_RATE, Int.even_iff]

/-- Claim C10, amended: whenever `salary - pre_tax_adjustments` is at most
the band's allowance lower limit (including a negative difference, with the
band thresholds ordered), the returned `NetIncome` has `personal_allowance`
equal to the penny-ROUNDING of `salary - pre_tax_adjustments` (possibly
negative), `taxable_income = 0` and `tax = 0`. -/
theorem C10_amended (fetch : String → Option TaxBands) (y : String) (s p : ℚ)
    (b : TaxBands) (n : NetIncome) (hf : fetch y = some b)
    (h : calculate_tax fetch y s p = Except.ok n)
    (hsla : s - p ≤ b.personal_allowance)
    (hb1 : b.personal_allowance ≤ b.tax_basic_rate_limit)
    (hb2 : b.tax_basic_rate_limit ≤ b.tax_higher_rate_limit) :
    n.personal_allowance = quantizePence (s - p) ∧
    n.taxable_income = 0 ∧ n.tax = 0 := by
  have hn := calculate_tax_ok_fields fetch y s p b n hf h
  subst hn
  have hraw : raw_personal_allowance b s p = s - p := by
    rw [raw_personal_allowance, calculate_personal_allowance, if_pos hsla]
  have htax0 : raw_tax b s p = 0 := by
    rw [raw_tax, hraw]
    have hB : ¬ (b.tax_basic_rate_limit - (s - p) < (0:ℚ)) := by linarith
    have hB' : ¬ (b.tax_basic_rate_limit < s - p) := by linarith
    have hC : ¬ (b.tax_higher_rate_limit - b.tax_basic_rate_limit < (0:ℚ)) := by
      linarith
    have hC' : ¬ (b.tax_higher_rate_limit < b.tax_basic_rate_limit) := not_lt.2 hb2
    simp [calculate_contributions, spread_over_checkpoints, spreadAux, esum,
      EDec.pyMin, EDec.pyLt, EDec.sub, EDec.add, EDec.mul, EDec.gtZero,
      EDec.toRat, ZERO, hB, hB', hC, hC']
  refine ⟨?_, ?_, ?_⟩
  · show quantizePence (raw_personal_allowance b s p) = quantizePence (s - p)
    rw [hraw]
  · show quantizePence ((s - p) - raw_personal_allowance b s p) = 0
    rw [hraw, sub_self]
    norm_num [quantizePence, rhe]
  · show quantizePence (raw_tax b s p) = 0
    rw [htax0]
    norm_num [quantizePence, rhe]

theorem C10_witness :
    C10net.personal_allowance = quantizePence ((1:ℚ)/8 - 0) ∧
    C10net.taxable_income = 0 ∧ C10net.tax = 0 := by
  have h : calculate_tax sampleFetch "2024/2025" (1/8) 0 = Except.ok C10net := by
    norm_num [calculate_tax, sampleFetch, sampleBands, TaxYear.values, C10net,
      NetIncome.post_init, calculate_personal_allowance, calculate_contributions,
      spread_over_checkpoints, spreadAux, esum, EDec.pyMin, EDec.pyLt, EDec.sub,
      EDec.add, EDec.mul, EDec.gtZero, EDec.toRat, quantizePence, rhe, ZERO,
      TAX_BASIC_RATE, TAX_HIGHER_RATE, TAX_ADDITIONAL_RATE, NI_BASIC_RATE,
      NI_ADDITIONAL_RATE, Int.even_iff]
  exact C10_amended sampleFetch "2024/2025" (1/8) 0 sampleBands C10net rfl h
    (by norm_num [sampleBands]) (by norm_num [sampleBands])
    (by norm_num [sampleBands])

/-- The `NetIncome` the embedded code produces for tax year 2024/2025,
salary 12570.125 and adjustments 0: the tax field is 0.03, reflecting the
float-contaminated `Decimal(0.2)` basic rate. -/
def C1net : NetIncome :=
  { salary := 314253/25, tax_year := "2024/2025", pre_tax_adjustments := 0,
    taxable_income := 3/25, personal_allowance := 12570, tax := 3/100,
    national_insurance := 1/100, other_deductions := [],
    total_deductions := 1/25, take_home_pay := 1257009/100 }

/-- Claim C1, code bug: the code's `TAX_BASIC_RATE = decimal.Decimal(0.2)` is NOT
exactly 20% (it is the binary double 0.200000000000000011102…), and the
divergence is observable to the penny: at salary 12570.125 the code returns
tax 0.03, whereas the same spreading computed with the exactly-20%/40%/45%
rates the claim states gives 0.025, which the code's own rounding would take
to 0.02. -/
theorem C1_float_contaminated_rates :
    TAX_BASIC_RATE ≠ 1/5 ∧
    calculate_tax sampleFetch "2024/2025" (100561/8) 0 = Except.ok C1net ∧
    C1net.tax = 3/100 ∧
    (calculate_contributions (EDec.fin (100561/8 - 0))
        [EDec.fin (raw_personal_allowance sampleBands (100561/8) 0),
          EDec.fin sampleBands.tax_basic_rate_limit,
          EDec.fin sampleBands.tax_higher_rate_limit]
        [EDec.fin 0, EDec.fin (1/5), EDec.fin (2/5), EDec.fin (9/20)]).toRat
      = 1/40 ∧
    quantizePence (1/40) = 1/50 ∧ (3:ℚ)/100 ≠ 1/50 := by
  refine ⟨by norm_num [TAX_BASIC_RATE], ?_, by norm_num [C1net], ?_,
    by norm_num [quantizePence, rhe, Int.even_iff], by norm_num⟩
  · norm_num [calculate_tax, sampleFetch, sampleBands, TaxYear.values, C1net,
      NetIncome.post_init, calculate_personal_allowance, calculate_contributions,
      spread_over_checkpoints, spreadAux, esum, EDec.pyMin, EDec.pyLt, EDec.sub,
      EDec.add, EDec.mul, EDec.gtZero, EDec.toRat, quantizePence, rhe, ZERO,
      TAX_BASIC_RATE, TAX_HIGHER_RATE, TAX_ADDITIONAL_RATE, NI_BASIC_RATE,
      NI_ADDITIONAL_RATE, Int.even_iff]
  · norm_num [raw_personal_allowance, calculate_personal_allowance, sampleBands,
      calculate_contributions, spread_over_checkpoints, spreadAux, esum,
      EDec.pyMin, EDec.pyLt, EDec.sub, EDec.add, EDec.mul, EDec.gtZero,
      EDec.toRat]

theorem C2_witness :
    (NetIncome.post_init
      { salary := 1/7, tax_year := "2024/2025", pre_tax_adjustments := 0,
        taxable_income := 0, personal_allowance := 0, tax := 0,
        national_insurance := 0, other_deductions := [], total_deductions := 0,
        take_home_pay := 0 }).salary = quantizePence (1/7) :=
  (C2_amended
    { salary := 1/7, tax_year := "2024/2025", pre_tax_adjustments := 0,
      taxable_income := 0, personal_allowance := 0, tax := 0,
      national_insurance := 0, other_deductions := [], total_deductions := 0,
      take_home_pay := 0 }).1.1
